import Mathlib

/-
  Verification of the wire/object engine of `wayland.py` (a client-side
  library for the Wayland display protocol).

  Shallow embedding conventions:
  * Python `bytes` values are `List Nat` (each element a byte value).
  * Python `str` values are `List Nat` (each element a Unicode code point);
    `str.encode()` is modelled by an explicit UTF-8 encoder.
  * Python `float` values appearing as Wayland `fixed` values are exact
    multiples of 1/256 and are represented by their numerator: the integer
    `x : Int` stands for the real value `x / 256`.
  * `struct.pack` raising `struct.error` (value out of range) is modelled by
    an `Option` result: `Option.none` stands for the raised exception.
-/

namespace wayland

/-- Little-endian bytes of a 16-bit value, as produced by `struct.pack` with
format character H on a little-endian host. -/
def le16 (n : Nat) : List Nat :=
  [n % 256, n / 256 % 256]

/-- Little-endian bytes of a 32-bit value, as produced by `struct.pack` with
format characters i and I on a little-endian host. -/
def le32 (n : Nat) : List Nat :=
  [n % 256, n / 256 % 256, n / 65536 % 256, n / 16777216 % 256]

/-- Read a little-endian unsigned integer from a byte list. -/
def fromLeBytes : List Nat → Nat
  | [] => 0
  | b :: rest => b % 256 + 256 * fromLeBytes rest

/-- Python `bytes.ljust(width, b'\x00')`: pad on the right with zero bytes up
to `width`; a byte string already at least `width` long is returned unchanged
(Nat subtraction makes the replicate count 0 in that case). -/
def ljust (bs : List Nat) (width : Nat) : List Nat :=
  bs ++ List.replicate (width - bs.length) 0

/-- UTF-8 encoding of one Unicode code point (1 to 4 bytes). -/
def utf8Char (c : Nat) : List Nat :=
  if c < 128 then [c]
  else if c < 2048 then [192 + c / 64, 128 + c % 64]
  else if c < 65536 then [224 + c / 4096, 128 + c / 64 % 64, 128 + c % 64]
  else [240 + c / 262144, 128 + c / 4096 % 64, 128 + c / 64 % 64, 128 + c % 64]

/-- Python `str.encode()`: UTF-8 bytes of a string (list of code points). -/
def utf8 (s : List Nat) : List Nat :=
  (s.map utf8Char).flatten

/-! ## Wayland wire types (`class Int` .. `class Header` in wayland.py) -/

namespace Int

/-- `Int.to_bytes`: `struct.pack('i', value)` — little-endian two's complement
of a signed 32-bit value; out-of-range values raise `struct.error`. -/
def to_bytes (v : Int) : Option (List Nat) :=
  if -2147483648 ≤ v ∧ v < 2147483648 then
    Option.some (le32 (Int.emod v 4294967296).toNat)
  else
    Option.none

end Int

namespace UInt

/-- `UInt.to_bytes`: `struct.pack('I', value)` — little-endian unsigned 32-bit;
negative or too-large values raise `struct.error`. -/
def to_bytes (v : Int) : Option (List Nat) :=
  if 0 ≤ v ∧ v < 4294967296 then
    Option.some (le32 v.toNat)
  else
    Option.none

end UInt

namespace Fixed

/-- `Fixed.to_bytes`: `self.struct.pack((int(self.value) << 8) + int((self.value % 1.0) * 256))`
with format 'I'.  The held value is `x / 256`; Python `int()` truncates toward
zero (`Int.tdiv`), Python `% 1.0` keeps the sign of the (positive) divisor
(`Int.emod`), and the shift by 8 is multiplication by 256.  `struct.pack('I', v)`
raises `struct.error` unless `0 ≤ v < 2^32`. -/
def to_bytes (x : Int) : Option (List Nat) :=
  let packed : Int := (Int.tdiv x 256) * 256 + Int.emod x 256
  if 0 ≤ packed ∧ packed < 4294967296 then
    Option.some (le32 packed.toNat)
  else
    Option.none

/-- `Fixed.from_bytes`: unpack 'I', then `(unpacked >> 8) + (unpacked & 0xff) / 256.0`;
the result, in units of 1/256, is `(u >>> 8) * 256 + (u &&& 0xff)`. -/
def from_bytes (b : List Nat) : Int :=
  let unpacked := fromLeBytes (b.take 4)
  Int.ofNat ((unpacked / 256) * 256 + unpacked % 256)

end Fixed

namespace String

/-- `String.__init__`: `self.length = 4 + len(text) + (-len(text) % 4)`
(`len(text)` counts code points; Python `-n % 4` is `(4 - n % 4) % 4`). -/
def lengthAttr (s : List Nat) : Nat :=
  4 + s.length + (4 - s.length % 4) % 4

/-- `String.to_bytes`:
`string_length = len(self.value) + 1`; `padding = self.length - self.struct.size`;
`encoded = self.value.encode()`; returns
`self.struct.pack(string_length) + encoded.ljust(padding, b'\x00')`. -/
def to_bytes (s : List Nat) : List Nat :=
  let string_length := s.length + 1
  let padding := lengthAttr s - 4
  let encoded := utf8 s
  le32 string_length ++ ljust encoded padding

end String

namespace Array

/-- `Array.to_bytes`:
`length = len(self.value)`; `padding_size = (4 - (length % 4))`; returns
`self.struct.pack(length) + b'\x00' * padding_size`.  Note that the payload
`self.value` itself is never appended. -/
def to_bytes (a : List Nat) : List Nat :=
  let length := a.length
  let padding_size := 4 - length % 4
  le32 length ++ List.replicate padding_size 0

/-- `Array.from_bytes`: unpack the 32-bit length, then `buffer[4:4+length]`. -/
def from_bytes (b : List Nat) : List Nat :=
  let length := fromLeBytes (b.take 4)
  (b.drop 4).take length

end Array

namespace Header

/-- `Header.struct = Struct('IHH')`, so `Header.length` is 8. -/
def length : Nat := 8

/-- `Header.to_bytes`: `struct.pack('IHH', oid, opcode, size)`. -/
def to_bytes (oid opcode size : Nat) : List Nat :=
  le32 oid ++ le16 opcode ++ le16 size

end Header

/-! ## Python values handed to the marshaller -/

/-- The Python values that reach the wire types: `int` ids and fds, `float`
fixed values (represented by their numerator over 256), `str`, `bytes`
(pre-assembled `new_id` triples for `wl_registry.bind`), and `None`. -/
inductive PyValue
  | int (n : Int)
  | float (x : Int)
  | str (s : List Nat)
  | bytes (b : List Nat)
  | none
deriving DecidableEq

/-- Python truthiness of a `PyValue` (`None`, `0`, `0.0`, empty `str` and
empty `bytes` are falsy). -/
def PyValue.truthy : PyValue → Bool
  | .none => false
  | .int n => n ≠ 0
  | .float x => x ≠ 0
  | .str s => s ≠ []
  | .bytes b => b ≠ []

namespace Object

/-- `Object.__init__`: `super().__init__(value if value else 0)` — a falsy
value (in particular `None`) is stored as id 0. -/
def init (v : PyValue) : PyValue :=
  if v.truthy then v else PyValue.int 0

/-- `Object.to_bytes` is inherited from `UInt`: pack the stored value with
'I'; a non-integer truthy value would raise in `pack`. -/
def to_bytes (v : PyValue) : Option (List Nat) :=
  match init v with
  | PyValue.int n => UInt.to_bytes n
  | _ => Option.none

end Object

namespace NewID

/-- `NewID.to_bytes`: `bytes` values (the `wl_registry.bind` special case) are
returned verbatim, otherwise the `UInt` packing is used. -/
def to_bytes (v : PyValue) : Option (List Nat) :=
  match v with
  | PyValue.bytes b => Option.some b
  | PyValue.int n => UInt.to_bytes n
  | _ => Option.none

end NewID

/-! ## Argument and Request (`class Argument`, `class Request`) -/

/-- The eight Wayland primitive argument type names (`Argument._type_map`). -/
inductive WType
  | int
  | uint
  | fixed
  | string
  | object
  | new_id
  | array
  | fd
deriving DecidableEq

/-- The metadata that `Argument.__init__` records from an `<arg>` element:
its wire type, the optional pinned interface name, and the allow-null flag.
`allow_null` is assigned at construction and never read again anywhere in the
module. -/
structure Argument where
  type_name : WType
  interface : Option (List Nat)
  allow_null : Bool
deriving DecidableEq

/-- `Argument.__call__(value)`: `self.wl_type(value).to_bytes()`.  A value of
the wrong Python type raises inside `pack` (`Option.none`). -/
def Argument.call (a : Argument) (v : PyValue) : Option (List Nat) :=
  match a.type_name with
  | WType.int =>
      match v with
      | PyValue.int n => Int.to_bytes n
      | _ => Option.none
  | WType.uint =>
      match v with
      | PyValue.int n => UInt.to_bytes n
      | _ => Option.none
  | WType.fixed =>
      match v with
      | PyValue.float x => Fixed.to_bytes x
      | PyValue.int n => Fixed.to_bytes (256 * n)
      | _ => Option.none
  | WType.string =>
      match v with
      | PyValue.str s => Option.some (String.to_bytes s)
      | _ => Option.none
  | WType.object => Object.to_bytes v
  | WType.new_id => NewID.to_bytes v
  | WType.array =>
      match v with
      | PyValue.bytes b => Option.some (Array.to_bytes b)
      | _ => Option.none
  | WType.fd =>
      match v with
      | PyValue.int n => Int.to_bytes n
      | _ => Option.none

/-- The loop body of `Request.__call__` over `zip(self.arguments, args)`:
fd-typed arguments are appended to the fd payload, every other argument is
encoded and appended to the byte payload; an encoding error (raised
exception) aborts the whole call before anything is sent.  (The
`returns_new_object` interface registration has no effect on what is written
to the socket and is not modelled here.) -/
def marshal : List Argument → List PyValue → Option (List Nat × List Nat)
  | [], _ => Option.some ([], [])
  | _ :: _, [] => Option.some ([], [])
  | a :: rest, v :: vs =>
      match Argument.call a v with
      | Option.none => Option.none
      | Option.some encoded =>
          match marshal rest vs with
          | Option.none => Option.none
          | Option.some (bytestring, fds) =>
              if a.type_name = WType.fd then
                Option.some (bytestring, encoded ++ fds)
              else
                Option.some (encoded ++ bytestring, fds)

/-- How an invocation of `Request.__call__` terminates: normally, with the
arity `assert` raising `AssertionError`, or with an encoding exception. -/
inductive CallOutcome
  | ok
  | arityError
  | encodeError
deriving DecidableEq

/-- The state a `Request` closes over: the owning object id, its opcode, and
its declared argument list. -/
structure Request where
  parent_oid : Nat
  opcode : Nat
  arguments : List Argument
deriving DecidableEq

/-- `Request.__call__` followed by `Request._send`: the first statement is
`assert len(args) == len(self.arguments)`, so on an arity mismatch the
function raises before the marshalling loop and before `_send`; otherwise the
payloads are marshalled and exactly one `sendmsg(header + bytestring, fds)`
call is made.  The returned list collects the `sendmsg` calls performed. -/
def Request.call (req : Request) (args : List PyValue) :
    List (List Nat × List Nat) × CallOutcome :=
  if args.length = req.arguments.length then
    match marshal req.arguments args with
    | Option.some (bytestring, fds) =>
        let size := Header.length + bytestring.length
        ([(Header.to_bytes req.parent_oid req.opcode size ++ bytestring, fds)],
         CallOutcome.ok)
    | Option.none => ([], CallOutcome.encodeError)
  else
    ([], CallOutcome.arityError)

/-! ## Object id pool (`class ObjectIDPool`) -/

/-- `ObjectIDPool` state: `itertools.cycle(range(minimum, maximum))` is
represented by the bounds plus a running counter (`minimum + seqPos % (maximum - minimum)`
is the next value the cycle yields), and the `deque` recycle pool by a list
whose head is the deque front. -/
structure ObjectIDPool where
  minimum : Nat
  maximum : Nat
  seqPos : Nat
  recycle : List Nat
deriving DecidableEq

/-- `ObjectIDPool.__next__`: pop the recycle deque front when it is non-empty;
otherwise take the next value of the cyclic generator.  The source then runs
`while oid in self._recycle_pool: oid = next(self._sequence)`, but on this
branch `_recycle_pool` is empty, so the membership test is `False` and the
loop body never executes. -/
def ObjectIDPool.next (p : ObjectIDPool) : Nat × ObjectIDPool :=
  match p.recycle with
  | x :: rest => (x, { p with recycle := rest })
  | [] =>
      let oid := p.minimum + p.seqPos % (p.maximum - p.minimum)
      (oid, { p with seqPos := p.seqPos + 1 })

/-- `ObjectIDPool.send(oid)`: append to the recycle deque. -/
def ObjectIDPool.send (p : ObjectIDPool) (oid : Nat) : ObjectIDPool :=
  { p with recycle := p.recycle ++ [oid] }

/-! ## Event handler table (`Interface.set_handler` / `remove_handler` / `dispatch_event`) -/

/-- `Interface.set_handler(name, handler)`: `self._handlers[name].append(handler)`.
Handlers are modelled by identity tokens (`Nat`); the list is the handler
list of the one event named, in registration order — which is the order
`dispatch_event` fires them in. -/
def Interface.set_handler (hs : List Nat) (h : Nat) : List Nat :=
  hs ++ [h]

/-- `Interface.remove_handler(name, handler)`:
`if handler in self._handlers[name]: self._handlers[name].remove(handler)` —
Python `list.remove` deletes the first occurrence. -/
def Interface.remove_handler (hs : List Nat) (h : Nat) : List Nat :=
  if h ∈ hs then hs.erase h else hs

/-! ## The sync barrier (`Client.__init__` line 562, `Client.sync`) -/

/-- `self._sync_semaphore = _threading.Semaphore()` — the default initial
counter of `threading.Semaphore` is 1. -/
def syncSemaphoreCount : Nat := 1

/-- `Semaphore.acquire(True, 5)`: with a positive counter the semaphore is
decremented and the call returns immediately (`Option.some` of the new
counter); with a zero counter the caller must wait, up to the timeout, for a
`release` (`Option.none`). -/
def semaphoreAcquireImmediate (count : Nat) : Option Nat :=
  if 0 < count then Option.some (count - 1) else Option.none

/-! ## The event demultiplexer (`Client.receive`) -/

/-- The frame-parsing loop of `Client.receive` over `data = self._recv_buffer + new_data`:
while `len(data) > Header.length`, decode the 'IHH' header, stop if the frame
is incomplete, otherwise emit the frame as `(oid, opcode, payload)` — the
source resolves `client_objects[oid].events[opcode]` and lets the event
decode the payload and fire the handlers — and drop `size` bytes.  Returns
the dispatched frames and the residue assigned to `self._recv_buffer`.
The fuel argument bounds the recursion; for well-formed frames each
iteration consumes `size ≥ 8` bytes, so fuel `data.length` is never
exhausted. -/
def parseFrames : Nat → List Nat → List (Nat × Nat × List Nat) × List Nat
  | 0, data => ([], data)
  | fuel + 1, data =>
      if Header.length < data.length then
        let oid := fromLeBytes (data.take 4)
        let opcode := fromLeBytes ((data.drop 4).take 2)
        let size := fromLeBytes ((data.drop 6).take 2)
        if data.length < size then
          ([], data)
        else
          let payload := (data.drop Header.length).take (size - Header.length)
          let (rest, residue) := parseFrames fuel (data.drop size)
          ((oid, opcode, payload) :: rest, residue)
      else
        ([], data)

/-- `Client.receive` when `recvmsg` returns `newData`: prepend the buffered
residue, run the parsing loop, and store the leftover in `_recv_buffer`. -/
def Client.receive (recvBuf newData : List Nat) :
    List (Nat × Nat × List Nat) × List Nat :=
  let data := recvBuf ++ newData
  parseFrames data.length data

/-- The same parsing loop when an event handler may raise: `raises oid opcode`
says whether dispatching frame `(oid, opcode)` raises.  The result records
the frames dispatched (the raising frame included — its handler runs and
raises mid-dispatch), the local `data` remaining after the loop, and whether
an exception escaped. -/
def parseFramesExc (raises : Nat → Nat → Bool) :
    Nat → List Nat → List (Nat × Nat × List Nat) × List Nat × Bool
  | 0, data => ([], data, false)
  | fuel + 1, data =>
      if Header.length < data.length then
        let oid := fromLeBytes (data.take 4)
        let opcode := fromLeBytes ((data.drop 4).take 2)
        let size := fromLeBytes ((data.drop 6).take 2)
        if data.length < size then
          ([], data, false)
        else
          let payload := (data.drop Header.length).take (size - Header.length)
          if raises oid opcode then
            ([(oid, opcode, payload)], data, true)
          else
            let (rest, residue, exc) := parseFramesExc raises fuel (data.drop size)
            ((oid, opcode, payload) :: rest, residue, exc)
      else
        ([], data, false)

/-- `Client.receive` with a possibly-raising handler.  The assignment
`self._recv_buffer = data` is the statement after the loop, so when a handler
raises, the exception propagates out of `receive` before it executes and the
old buffer value is retained; the bytes of `newData` that were not dispatched
are lost. -/
def Client.receiveExc (raises : Nat → Nat → Bool) (recvBuf newData : List Nat) :
    List (Nat × Nat × List Nat) × List Nat × Bool :=
  let data := recvBuf ++ newData
  let (frames, residue, exc) := parseFramesExc raises data.length data
  (frames, if exc then recvBuf else residue, exc)

/-! ## Helper lemmas -/

/-- On ASCII strings the UTF-8 encoding is the identity, byte for byte. -/
theorem utf8_ascii (s : List Nat) (hA : ∀ c ∈ s, c < 128) : utf8 s = s := by
  induction s with
  | nil => rfl
  | cons c t ih =>
      have hc : c < 128 := hA c (by simp)
      have ht : ∀ x ∈ t, x < 128 := fun x hx => hA x (by simp [hx])
      have ih2 := ih ht
      simp only [utf8, List.map_cons, List.flatten_cons] at ih2 ⊢
      rw [ih2]
      unfold utf8Char
      rw [if_pos hc]
      rfl

/-- Erasing an element appended to a list it does not occur in restores the
list. -/
theorem erase_append_singleton_of_not_mem (hs : List Nat) (h : Nat)
    (hni : h ∉ hs) : (hs ++ [h]).erase h = hs := by
  induction hs with
  | nil => simp
  | cons c t ih =>
      have hch : ¬ c = h := fun e => hni (e ▸ List.mem_cons_self c t)
      have hnt : h ∉ t := fun m => hni (List.mem_cons_of_mem c m)
      simp only [List.cons_append, List.erase_cons]
      rw [if_neg (by simpa using hch), ih hnt]

/-! ## Claims -/

/-- C1: the claim states every primitive type round-trips through the codec
with a 4-byte-aligned encoding.  `Array.to_bytes` in fact never appends the
payload: for the one-byte array `b'\x01'` the encoding is the 7 bytes
`01 00 00 00 00 00 00` (length prefix plus three pad bytes), whose length is
not a multiple of 4, and decoding it yields `b'\x00'`, not `b'\x01'`. -/
theorem C1_array_payload_dropped :
    Array.to_bytes [1] = [1, 0, 0, 0, 0, 0, 0] ∧
    (Array.to_bytes [1]).length % 4 = 3 ∧
    Array.from_bytes (Array.to_bytes [1]) = [0] := by
  decide

/-- C2: the claim states the demultiplexer dispatches every complete frame
and leaves no residue, a `size == 8` frame dispatching with zero arguments.
The loop guard is `len(data) > 8` (strict), so a buffer holding exactly one
8-byte frame `(oid 1, opcode 0, size 8)` dispatches nothing and keeps all 8
bytes as residue; the frame is only dispatched once further bytes arrive
(second conjunct: with two such frames buffered, only the first is
dispatched and the second is retained). -/
theorem C2_trailing_size8_frame :
    Client.receive [] [1, 0, 0, 0, 0, 0, 8, 0] =
      ([], [1, 0, 0, 0, 0, 0, 8, 0]) ∧
    Client.receive [] ([1, 0, 0, 0, 0, 0, 8, 0] ++ [1, 0, 0, 0, 0, 0, 8, 0]) =
      ([(1, 0, [])], [1, 0, 0, 0, 0, 0, 8, 0]) := by
  decide

/-- C3 counterexample: the claim states every string encoding carries a NUL
terminator and pads to a 4-byte multiple, the empty string encoding as the
8 bytes `01 00 00 00 00 00 00 00`.  The code encodes the empty string as the
4 bytes `01 00 00 00`: length prefix 1, but no NUL byte and no padding. -/
theorem C3_empty_string_counterexample :
    String.to_bytes [] = [1, 0, 0, 0] ∧
    String.to_bytes [] ≠ [1, 0, 0, 0, 0, 0, 0, 0] := by
  decide

/-- C3 (amended): for every ASCII string, the encoding is the 4-byte
little-endian value `len(utf8(s)) + 1`, the UTF-8 bytes, and `-len(s) mod 4`
zero bytes, a 4-byte multiple in total; a NUL terminator is present only as
the first of those pad bytes, so none is emitted when `len(s)` is a multiple
of 4 — in particular the empty string encodes as `01 00 00 00` alone. -/
theorem C3_string_layout (s : List Nat) (hA : ∀ c ∈ s, c < 128) :
    String.to_bytes s =
      le32 ((utf8 s).length + 1) ++ utf8 s ++
        List.replicate ((4 - s.length % 4) % 4) 0 ∧
    (String.to_bytes s).length % 4 = 0 := by
  have h8 : utf8 s = s := utf8_ascii s hA
  have hmain : String.to_bytes s =
      le32 ((utf8 s).length + 1) ++ utf8 s ++
        List.replicate ((4 - s.length % 4) % 4) 0 := by
    simp only [String.to_bytes, String.lengthAttr, ljust, h8]
    have hcount : 4 + s.length + (4 - s.length % 4) % 4 - 4 - s.length =
        (4 - s.length % 4) % 4 := by omega
    rw [hcount, List.append_assoc]
  refine ⟨hmain, ?_⟩
  rw [hmain]
  simp only [List.length_append, List.length_replicate, le32, List.length_cons,
    List.length_nil, h8]
  omega

/-- C3 witness: the amended layout evaluated on the ASCII string "hi!". -/
theorem C3_string_layout_witness :
    String.to_bytes [104, 105, 33] =
      le32 ((utf8 [104, 105, 33]).length + 1) ++ utf8 [104, 105, 33] ++
        List.replicate ((4 - [104, 105, 33].length % 4) % 4) 0 ∧
    (String.to_bytes [104, 105, 33]).length % 4 = 0 :=
  C3_string_layout [104, 105, 33] (by decide)

/-- C4: the claim states the `fixed` packing formula, the encodings of 0.0
and 1.5, and that encoding succeeds on negative values.  The formula holds at
0.0 (raw 0) and 1.5 (384/256, raw 0x180), but at -1.0 (-256/256) the packed
value is -256 and `struct.pack('I', -256)` raises, so encoding fails for
every value of the signed domain at or below -1.0. -/
theorem C4_fixed_encoding :
    Fixed.to_bytes 0 = Option.some [0, 0, 0, 0] ∧
    Fixed.to_bytes 384 = Option.some [128, 1, 0, 0] ∧
    Fixed.to_bytes (-256) = Option.none := by
  decide

/-- C5 counterexample: the claim states the generator path skips every id in
the live object map.  With the pool `ObjectIDPool(1, 3)` and no removals,
three consecutive allocations (recycle queue empty throughout) yield 1, 2, 1:
the third allocation re-issues id 1 while it is still live, because the skip
test consults the recycle queue, never the live map. -/
theorem C5_live_id_reissued :
    ((ObjectIDPool.mk 1 3 0 []).next).1 = 1 ∧
    (((ObjectIDPool.mk 1 3 0 []).next).2.next).1 = 2 ∧
    ((((ObjectIDPool.mk 1 3 0 []).next).2.next).2.next).1 = 1 ∧
    ((((ObjectIDPool.mk 1 3 0 []).next).2.next).2).recycle = [] := by
  decide

/-- C5 (amended): allocation pops the FIFO front when the recycle queue is
non-empty — so after removal of id X the next allocation returns X — and
otherwise advances the cyclic generator unconditionally; the skip test checks
membership in the recycle queue (empty on that path), not the live map, so
nothing is skipped and a live id can be handed out again once the generator
wraps. -/
theorem C5_alloc_policy (p : ObjectIDPool) (x : Nat) (rest : List Nat) :
    (p.recycle = x :: rest → p.next = (x, { p with recycle := rest })) ∧
    (p.recycle = [] →
      p.next = (p.minimum + p.seqPos % (p.maximum - p.minimum),
                { p with seqPos := p.seqPos + 1 })) ∧
    (p.recycle = [] → ((p.send x).next).1 = x) := by
  refine ⟨?_, ?_, ?_⟩ <;> intro h <;>
    simp [ObjectIDPool.next, ObjectIDPool.send, h]

/-- C5 witness: a queued id 7 is popped from the front, and after sending id
9 back to an otherwise empty pool the next allocation returns 9. -/
theorem C5_alloc_policy_witness :
    (ObjectIDPool.mk 1 3 0 [7]).next = (7, ObjectIDPool.mk 1 3 0 []) ∧
    (((ObjectIDPool.mk 1 3 0 []).send 9).next).1 = 9 :=
  ⟨(C5_alloc_policy (ObjectIDPool.mk 1 3 0 [7]) 7 []).1 rfl,
   (C5_alloc_policy (ObjectIDPool.mk 1 3 0 []) 9 []).2.2 rfl⟩

/-- C6: the claim states `sync()` blocks until the `wl_callback.done` event
fires, including on the first call.  `threading.Semaphore()` is created with
its default counter 1, so the very first `acquire` decrements it and returns
immediately: the first `sync()` never waits for a `done` event. -/
theorem C6_first_sync_does_not_block :
    semaphoreAcquireImmediate syncSemaphoreCount = Option.some 0 := by
  rfl

/-- C7: the claim states a handler exception leaves the receive buffer equal
to the residue after the frames already dispatched.  With an empty prior
buffer and one chunk holding two 8-byte frames (oids 1 and 2) whose handlers
raise, the first frame is dispatched and the exception escapes before the
buffer assignment, so the retained buffer is the old empty one: the second
frame's 8 bytes are silently dropped instead of being kept as residue. -/
theorem C7_handler_exception_drops_bytes :
    Client.receiveExc (fun _ _ => true) []
        ([1, 0, 0, 0, 0, 0, 8, 0] ++ [2, 0, 0, 0, 0, 0, 8, 0]) =
      ([(1, 0, [])], [], true) ∧
    ([2, 0, 0, 0, 0, 0, 8, 0] : List Nat) ≠ [] := by
  decide

/-- C8: invoking a request with a number of positional values different from
its declared argument count raises the arity assertion as the first statement
of `Request.__call__`, before the marshalling loop and before `_send`, so no
`sendmsg` call is made: no frame bytes and no file descriptors reach the
transport. -/
theorem C8_arity_guard (req : Request) (args : List PyValue)
    (hne : args.length ≠ req.arguments.length) :
    Request.call req args = ([], CallOutcome.arityError) := by
  simp [Request.call, hne]

/-- C8 witness: calling a one-argument request with no values raises the
arity error and performs no sends. -/
theorem C8_arity_guard_witness :
    Request.call (Request.mk 1 0 [Argument.mk WType.uint Option.none false]) [] =
      ([], CallOutcome.arityError) :=
  C8_arity_guard (Request.mk 1 0 [Argument.mk WType.uint Option.none false]) []
    (by decide)

/-- C9 counterexample: the claim states set-then-remove of a handler restores
the previous handler list in the same invocation order.  Starting from the
list `[0, 1]` (handler 0 registered before handler 1), setting handler 0
again and removing it yields `[1, 0]`: `remove` deletes the first occurrence
while `set` appended at the end, so the surviving occurrence of 0 now fires
after 1. -/
theorem C9_reorders_existing_handler :
    Interface.remove_handler (Interface.set_handler [0, 1] 0) 0 = [1, 0] ∧
    ([1, 0] : List Nat) ≠ [0, 1] := by
  decide

/-- C9 (amended): setting then removing the same handler restores the
previous handler list exactly whenever the handler was not already
registered; in general the multiset of handlers is preserved, but the first
pre-existing occurrence of the handler moves to the end of the invocation
order. -/
theorem C9_set_remove (hs : List Nat) (h : Nat) :
    (h ∉ hs →
      Interface.remove_handler (Interface.set_handler hs h) h = hs) ∧
    List.Perm (Interface.remove_handler (Interface.set_handler hs h) h) hs := by
  have hmem : h ∈ hs ++ [h] := by simp
  constructor
  · intro hni
    simp only [Interface.set_handler, Interface.remove_handler, if_pos hmem]
    exact erase_append_singleton_of_not_mem hs h hni
  · simp only [Interface.set_handler, Interface.remove_handler, if_pos hmem]
    have h1 : List.Perm (hs ++ [h]) (h :: (hs ++ [h]).erase h) :=
      List.perm_cons_erase hmem
    have h2 : List.Perm (hs ++ [h]) (h :: hs) := List.perm_append_singleton h hs
    exact (List.perm_cons h).mp (h1.symm.trans h2)

/-- C9 witness: with prior handler list `[1, 2]`, setting and removing the
fresh handler 0 restores `[1, 2]` exactly (and as a permutation). -/
theorem C9_set_remove_witness :
    Interface.remove_handler (Interface.set_handler [1, 2] 0) 0 = [1, 2] ∧
    List.Perm (Interface.remove_handler (Interface.set_handler [1, 2] 0) 0)
      [1, 2] :=
  ⟨(C9_set_remove [1, 2] 0).1 (by decide), (C9_set_remove [1, 2] 0).2⟩

/-- C10: marshalling `None` for an object-typed argument stores id 0 (the
falsy value is replaced by 0 in `Object.__init__`) and packs it as the four
zero bytes, whatever the argument's allow-null flag; and no encoding path
reads `allow_null` at all — flipping the flag never changes the encoding of
any value. -/
theorem C10_null_object_unchecked (i : Option (List Nat)) (b : Bool)
    (a : Argument) (v : PyValue) :
    Argument.call (Argument.mk WType.object i b) PyValue.none =
      Option.some [0, 0, 0, 0] ∧
    Argument.call { a with allow_null := true } v =
      Argument.call { a with allow_null := false } v := by
  constructor
  · rfl
  · cases a
    rfl

end wayland
